import Mathlib

/-!
Verification of the XposedOrNot JS client SDK, shallowly embedded in Lean 4.

The embedding follows `src/utils/http.ts` (the request executor: retry loop,
timeout signal, response decoding and error classification),
`src/client.ts` (configuration resolution and validation), and the endpoint
wrappers `src/endpoints/check-email.ts` and `src/endpoints/breach-analytics.ts`.

JavaScript runtime values that flow through the executor (decoded JSON bodies)
are modelled by an inductive `Json` type; JS `number` configuration inputs are
modelled by `ℚ` (which, like a JS double used for a millisecond count, can be
non-integral); time is modelled by explicit natural-number milliseconds threaded
through the retry loop, with the `AbortController`/`setTimeout` pair modelled as
an explicit timer state (`armed`/`cleared`/`fired`).
-/

namespace XposedOrNot

/-- A JSON runtime value, as produced by `response.json()` (or `response.text()`,
which yields a `Json.str`). -/
inductive Json where
  | null
  | bool (b : Bool)
  | num (n : Int)
  | str (s : String)
  | arr (elems : List Json)
  | obj (fields : List (String × Json))

/-- A raw transport-level failure thrown by `fetch` (e.g. connection refused,
DNS failure, or the abort triggered by the timeout signal): a JS `Error` with
its `name` and `message`. -/
structure TransportError where
  name : String
  message : String
  deriving DecidableEq, Repr

/-- The error taxonomy of `src/errors/index.ts`: each constructor is one of the
`XposedOrNotError` subclasses, carrying the same data fields. -/
inductive XonError where
  | validation (message : String) (field : Option String)
  | rateLimit (message : String) (retryAfter : Option Int)
  | notFound (message : String)
  | authentication (message : String)
  | network (message : String) (cause : Option TransportError)
  | timeout (message : String)
  | api (message : String) (statusCode : Nat) (response : Json)

/-- The `statusCode` field each error class passes to the base constructor:
`RateLimitError` 429, `NotFoundError` 404, `AuthenticationError` 401,
`ApiError` its status; `ValidationError`, `NetworkError`, `TimeoutError` none. -/
def XonError.statusCode : XonError → Option Nat
  | .validation _ _ => none
  | .rateLimit _ _ => some 429
  | .notFound _ => some 404
  | .authentication _ => some 401
  | .network _ _ => none
  | .timeout _ => none
  | .api _ s _ => some s

/-- The `name` property each error class assigns (`this.name = '...'`). -/
def XonError.jsName : XonError → String
  | .validation _ _ => "ValidationError"
  | .rateLimit _ _ => "RateLimitError"
  | .notFound _ => "NotFoundError"
  | .authentication _ => "AuthenticationError"
  | .network _ _ => "NetworkError"
  | .timeout _ => "TimeoutError"
  | .api _ _ _ => "ApiError"

/-- `error instanceof RateLimitError`. -/
def XonError.isRateLimit : XonError → Bool
  | .rateLimit _ _ => true
  | _ => false

/-- `error instanceof NotFoundError`. -/
def XonError.isNotFound : XonError → Bool
  | .notFound _ => true
  | _ => false

/-- `HttpClient.extractErrorMessage`: a string body is used verbatim; an object
body is probed for string-valued `Error`, `error`, `message` fields in that
order; anything else falls back to a generic message. -/
def extractErrorMessage (data : Json) : String :=
  match data with
  | .str s => s
  | .obj fields =>
    match fields.lookup "Error" with
    | some (.str s) => s
    | _ =>
      match fields.lookup "error" with
      | some (.str s) => s
      | _ =>
        match fields.lookup "message" with
        | some (.str s) => s
        | _ => "An unknown error occurred"
  | _ => "An unknown error occurred"

/-- `HttpClient.extractRetryAfter`: from an object body, the numeric
`retry_after` field if present, else the numeric `retryAfter` field. -/
def extractRetryAfter (data : Json) : Option Int :=
  match data with
  | .obj fields =>
    match fields.lookup "retry_after" with
    | some (.num n) => some n
    | _ =>
      match fields.lookup "retryAfter" with
      | some (.num n) => some n
      | _ => none
  | _ => none

/-- `HttpClient.handleErrorResponse`: classify a non-success status plus its
decoded body into the taxonomy. The `default` branch applies the JS
`message || 'API error: <status>'` fallback (only the empty string is falsy). -/
def handleErrorResponse (status : Nat) (data : Json) : XonError :=
  let message := extractErrorMessage data
  match status with
  | 401 => .authentication message
  | 404 => .notFound message
  | 429 => .rateLimit message (extractRetryAfter data)
  | _ => .api (if message = "" then "API error: " ++ toString status else message) status data

/-- An HTTP response as the executor observes it: status, the
`content-type` header, the outcome of `response.json()` (`none` when the body
fails to parse, i.e. the call throws), and the outcome of `response.text()`. -/
structure Response where
  status : Nat
  contentType : Option String
  jsonBody : Option Json
  textBody : String

/-- `needle` is a leading segment of the character list. -/
def charsStartsWith : List Char → List Char → Bool
  | [], _ => true
  | _ :: _, [] => false
  | c :: cs, d :: ds => c == d && charsStartsWith cs ds

/-- Substring containment on character lists, modelling
`String.prototype.includes`. -/
def charsContains (needle : List Char) : List Char → Bool
  | [] => charsStartsWith needle []
  | d :: ds => charsStartsWith needle (d :: ds) || charsContains needle ds

/-- `contentType?.includes('application/json')`. -/
def contentTypeIsJson (ct : Option String) : Bool :=
  match ct with
  | some s => charsContains "application/json".toList s.toList
  | none => false

/-- Body decoding in `HttpClient.handleResponse`: a JSON content type decodes
the JSON body (a parse failure yields `null`), any other content type yields
the raw text. -/
def decodeBody (resp : Response) : Json :=
  if contentTypeIsJson resp.contentType then resp.jsonBody.getD Json.null
  else Json.str resp.textBody

/-- `Response.ok`: status in 200..299. -/
def responseOk (status : Nat) : Bool :=
  decide (200 ≤ status ∧ status ≤ 299)

/-- `HttpClient.handleResponse`: 304 is success with an empty object (no body
decode); otherwise decode the body, return it on `ok`, else classify. -/
def handleResponse (resp : Response) : Except XonError Json :=
  if resp.status = 304 then .ok (Json.obj [])
  else
    let data := decodeBody resp
    if responseOk resp.status then .ok data
    else .error (handleErrorResponse resp.status data)

/-- The behaviour the environment assigns to one `fetch` call: either the
promise rejects with a transport `Error` after `dur` milliseconds, or it
resolves with a `Response` after `dur` milliseconds. -/
inductive FetchBehavior where
  | fails (name message : String) (dur : Nat)
  | responds (resp : Response) (dur : Nat)

/-- How long the attempt would naturally take. -/
def FetchBehavior.dur : FetchBehavior → Nat
  | .fails _ _ d => d
  | .responds _ d => d

/-- The state of the `setTimeout`/`AbortController` pair created once per
logical request: `armed` (timer pending), `cleared` (`clearTimeout` ran before
it fired), `fired` (it fired and the controller aborted). -/
inductive TimerState where
  | armed
  | cleared
  | fired
  deriving DecidableEq, Repr

/-- What the `catch (error)` block receives: an already classified
`XposedOrNotError` thrown by `handleResponse`, or a raw transport `Error`
rejected by `fetch`. -/
inductive CaughtError where
  | classified (e : XonError)
  | transport (t : TransportError)

/-- The `name` of the caught JS error. -/
def CaughtError.errName : CaughtError → String
  | .classified e => e.jsName
  | .transport t => t.name

/-- The condition under which the catch block rethrows immediately:
`error.statusCode && 400 <= statusCode < 500` (JS truthiness: 0 is falsy) and
the error is not a `RateLimitError`. -/
def throwsNoRetry (e : XonError) : Bool :=
  match e.statusCode with
  | some s => decide (s ≠ 0) && decide (400 ≤ s) && decide (s < 500) && !e.isRateLimit
  | none => false

/-- `Math.min(1000 * Math.pow(2, attempt - 1), 10000)`. -/
def backoffDelay (attempt : Nat) : Nat :=
  min (1000 * 2 ^ (attempt - 1)) 10000

/-- The observable result of one logical request: the outcome the caller sees,
the number of `fetch` calls made, and the list of backoff sleeps performed. -/
structure RunResult where
  outcome : Except XonError Json
  attempts : Nat
  delays : List Nat

/-- The code after the `while` loop: rethrow a classified `lastError` as-is,
otherwise wrap in a `NetworkError` (interpolating `lastError?.message`, which
is the string `"undefined"` when no attempt ever ran). -/
def finishExhausted (retries : Nat) (lastError : Option CaughtError) : XonError :=
  match lastError with
  | some (.classified e) => e
  | some (.transport t) =>
    .network ("Request failed after " ++ toString retries ++ " attempts: " ++ t.message) (some t)
  | none =>
    .network ("Request failed after " ++ toString retries ++ " attempts: undefined") none

/-- The `while (attempt < this.config.retries)` loop of `HttpClient.request`,
with `fuel = retries - attempt` driving the recursion.

Each iteration: if the controller has already aborted, `fetch` rejects at once
with an `AbortError`; otherwise the environment's behaviour for this attempt
runs for `dur` ms, and if the still-armed timer reaches `timeoutMs` inside that
window the attempt is aborted (`AbortError`, timer `fired`). A resolved
response first runs `clearTimeout` and then `handleResponse`; a thrown
classified 4xx non-rate-limit error is rethrown at once; an `AbortError`
becomes a `TimeoutError`; any other caught error is recorded and, if attempts
remain, the loop sleeps `backoffDelay` ms (the timer may fire during the
sleep) and retries. -/
def loopGo (timeoutMs retries : Nat) (beh : Nat → FetchBehavior) :
    Nat → Nat → Nat → TimerState → Option CaughtError → List Nat → RunResult
  | 0, attempt, _, _, lastError, delays =>
    ⟨.error (finishExhausted retries lastError), attempt, delays⟩
  | fuel + 1, attempt, elapsed, timer, _, delays =>
    let a := attempt + 1
    let step : Except CaughtError Json × Nat × TimerState :=
      match timer, beh a with
      | .fired, _ =>
        (.error (.transport ⟨"AbortError", "This operation was aborted"⟩), elapsed, .fired)
      | t, .responds resp d =>
        if t = .armed ∧ timeoutMs ≤ elapsed + d then
          (.error (.transport ⟨"AbortError", "This operation was aborted"⟩), timeoutMs, .fired)
        else
          match handleResponse resp with
          | .ok v => (.ok v, elapsed + d, .cleared)
          | .error e => (.error (.classified e), elapsed + d, .cleared)
      | t, .fails nm msg d =>
        if t = .armed ∧ timeoutMs ≤ elapsed + d then
          (.error (.transport ⟨"AbortError", "This operation was aborted"⟩), timeoutMs, .fired)
        else
          (.error (.transport ⟨nm, msg⟩), elapsed + d, t)
    match step with
    | (.ok v, _, _) => ⟨.ok v, a, delays⟩
    | (.error err, elapsed2, timer2) =>
      let rethrown : Option XonError :=
        match err with
        | .classified e => if throwsNoRetry e then some e else none
        | .transport _ => none
      match rethrown with
      | some e => ⟨.error e, a, delays⟩
      | none =>
        if err.errName = "AbortError" then
          ⟨.error (.timeout ("Request timed out after " ++ toString timeoutMs ++ "ms")), a, delays⟩
        else if fuel = 0 then
          ⟨.error (finishExhausted retries (some err)), a, delays⟩
        else
          let d := backoffDelay a
          let elapsed3 := elapsed2 + d
          let timer3 := if timer2 = .armed ∧ timeoutMs ≤ elapsed3 then TimerState.fired else timer2
          loopGo timeoutMs retries beh fuel a elapsed3 timer3 (some err) (delays ++ [d])

/-- `HttpClient.request`: one logical request. The timer is armed, no attempt
has run, and the loop starts with `attempt = 0`. -/
def httpRequest (timeoutMs retries : Nat) (beh : Nat → FetchBehavior) : RunResult :=
  loopGo timeoutMs retries beh retries 0 0 .armed none []

/-! ## URL query construction (`HttpClient.buildUrl`) -/

/-- A query value as typed in `RequestOptions.params`:
`string | boolean | undefined`. -/
inductive ParamValue where
  | str (s : String)
  | bool (b : Bool)
  | undef
  deriving DecidableEq, Repr

/-- JS `String(value)` on a defined param value. -/
def jsStringOf : ParamValue → String
  | .str s => s
  | .bool true => "true"
  | .bool false => "false"
  | .undef => "undefined"

/-- `url.searchParams.set(key, value)`: replace the value under an existing
key, otherwise append the pair. -/
def setEntry (acc : List (String × String)) (k v : String) : List (String × String) :=
  if acc.any (fun p => p.1 = k) then
    acc.map (fun p => if p.1 = k then (k, v) else p)
  else acc ++ [(k, v)]

/-- The query-parameter portion of `HttpClient.buildUrl`: iterate
`Object.entries(params)`, skipping `undefined` values and setting the
string-coerced value for the rest. -/
def buildUrlParams (params : List (String × ParamValue)) : List (String × String) :=
  params.foldl
    (fun acc kv =>
      match kv.2 with
      | .undef => acc
      | v => setEntry acc kv.1 (jsStringOf v))
    []

/-! ## Configuration resolution (`XposedOrNot.resolveConfig` in `src/client.ts`)

JS `number` inputs are modelled by `ℚ`: every `ℚ` passes the
`typeof x === 'number' && Number.isFinite(x)` guard, and `Number.isInteger`
is `Rat.isInt`. -/

/-- The user-supplied `XposedOrNotConfig` (all fields optional). -/
structure XonConfigInput where
  baseUrl : Option String
  timeoutMs : Option ℚ
  retries : Option ℚ
  headers : Option (List (String × String))

/-- The internal `ResolvedConfig`. -/
structure ResolvedConfig where
  baseUrl : String
  timeoutMs : ℚ
  retries : ℚ
  headers : List (String × String)
  deriving DecidableEq, Repr

/-- `DEFAULT_CONFIG` from `src/types/config.ts`. -/
def defaultConfig : ResolvedConfig :=
  ⟨"https://api.xposedornot.com", 30000, 3, []⟩

/-- Characters allowed after the first character of a URL scheme. -/
def isSchemeChar (c : Char) : Bool :=
  c.isAlphanum || c == '+' || c == '-' || c == '.'

/-- The characters before the first `':'`, if any colon occurs. -/
def schemeSplit : List Char → Option (List Char)
  | [] => none
  | c :: rest => if c = ':' then some [] else (schemeSplit rest).map (c :: ·)

/-- Models the WHATWG `new URL(s)` constructor (a platform facility, not repo
code), restricted to what `validateBaseUrl` observes: parsing succeeds iff the
string starts with `<scheme>:` where the scheme is a letter followed by
letters, digits, `+`, `-` or `.`; the result is `url.protocol`, the lowercased
scheme with the trailing colon. -/
def urlProtocol (s : String) : Option String :=
  match schemeSplit s.toList with
  | none => none
  | some [] => none
  | some (c0 :: rest) =>
    if c0.isAlpha && rest.all isSchemeChar then
      some (String.mk ((c0 :: rest).map Char.toLower) ++ ":")
    else none

/-- `XposedOrNot.validateBaseUrl`: URL must parse and use the `https:`
protocol; returns the `ValidationError` it would throw, if any. -/
def validateBaseUrl (u : String) : Option XonError :=
  match urlProtocol u with
  | none =>
    some (.validation ("Invalid baseUrl: \"" ++ u ++ "\" is not a valid URL") (some "baseUrl"))
  | some p =>
    if p ≠ "https:" then
      some (.validation ("Invalid baseUrl: must use HTTPS protocol (got \"" ++ p ++ "\")")
        (some "baseUrl"))
    else none

/-- `XposedOrNot.validateTimeout`: a finite number between 1000 and 300000
(every `ℚ` passes the finiteness guard; integrality is not checked). -/
def validateTimeout (t : ℚ) : Option XonError :=
  if t < 1000 ∨ t > 300000 then
    some (.validation
      ("Invalid timeout: must be between 1000ms and 300000ms (got " ++ toString t ++ "ms)")
      (some "timeout"))
  else none

/-- `XposedOrNot.validateRetries`: an integer between 0 and 10. -/
def validateRetries (r : ℚ) : Option XonError :=
  if ¬r.isInt then
    some (.validation "Invalid retries: must be an integer" (some "retries"))
  else if r < 0 ∨ r > 10 then
    some (.validation ("Invalid retries: must be between 0 and 10 (got " ++ toString r ++ ")")
      (some "retries"))
  else none

/-- JS object spread `{...a, ...b}` on string records. -/
def recordMerge (a b : List (String × String)) : List (String × String) :=
  b.foldl (fun acc kv => setEntry acc kv.1 kv.2) a

/-- `XposedOrNot.resolveConfig`: apply defaults, validate baseUrl, timeout and
retries in that order (throwing, i.e. returning, the first `ValidationError`),
then build the resolved config with merged headers. -/
def resolveConfig (cfg : XonConfigInput) : Except XonError ResolvedConfig :=
  let baseUrl := cfg.baseUrl.getD defaultConfig.baseUrl
  match validateBaseUrl baseUrl with
  | some e => .error e
  | none =>
    let t := cfg.timeoutMs.getD defaultConfig.timeoutMs
    match validateTimeout t with
    | some e => .error e
    | none =>
      let r := cfg.retries.getD defaultConfig.retries
      match validateRetries r with
      | some e => .error e
      | none =>
        .ok ⟨baseUrl, t, r, recordMerge defaultConfig.headers (cfg.headers.getD [])⟩

/-! ## Endpoint wrappers (`checkEmail`, `getBreachAnalytics`) -/

/-- The `CheckEmailResponse` union of `src/types/check-email.ts`: either the
found shape `{breaches: string[][], email}` (recognised by `isFoundResponse`,
i.e. a present array `breaches` field) or the not-found shape
`{Error, email}`. -/
inductive CheckEmailResponse where
  | foundResp (breaches : List (List String)) (email : String)
  | notFoundResp (err : String) (email : String)
  deriving DecidableEq, Repr

/-- The normalized `CheckEmailResult`. -/
structure CheckEmailResult where
  email : String
  found : Bool
  breaches : List String
  deriving DecidableEq, Repr

/-- The result-shaping of `checkEmail` in `src/endpoints/check-email.ts`,
applied to the outcome of `http.request`: a found response flattens the nested
breach list with `found: true`; a not-found response yields `found: false`;
a thrown `NotFoundError` is absorbed into `{email, found: false, breaches: []}`
and any other error is rethrown. -/
def checkEmailHandle (email : String) (outcome : Except XonError CheckEmailResponse) :
    Except XonError CheckEmailResult :=
  match outcome with
  | .ok (.foundResp bs em) => .ok ⟨em, true, bs.flatten⟩
  | .ok (.notFoundResp _ em) => .ok ⟨em, false, []⟩
  | .error e => if e.isNotFound then .ok ⟨email, false, []⟩ else .error e

/-- The fields of `BreachAnalyticsResponse` that `getBreachAnalytics`
inspects: `ExposedBreaches?.breaches_details` (outer `Option`: is
`ExposedBreaches` present; inner: is `breaches_details` present) and
`ExposedPastes` (`some` iff it is an array). -/
structure AnalyticsResponse where
  exposedBreachesDetails : Option (Option (List Json))
  exposedPastes : Option (List Json)

/-- The normalized `BreachAnalyticsResult`. -/
structure BreachAnalyticsResult where
  email : String
  found : Bool
  analytics : Option AnalyticsResponse

/-- The result-shaping of `getBreachAnalytics` in
`src/endpoints/breach-analytics.ts`, applied to the outcome of `http.request`:
`found` is true iff `breaches_details` is present and non-empty or
`ExposedPastes` is an array and non-empty; a thrown `NotFoundError` is
absorbed into `{email, found: false, analytics: null}` and any other error is
rethrown. -/
def getBreachAnalyticsHandle (email : String) (outcome : Except XonError AnalyticsResponse) :
    Except XonError BreachAnalyticsResult :=
  match outcome with
  | .ok resp =>
    let bd := resp.exposedBreachesDetails.bind (fun x => x)
    let hasBreaches := match bd with
      | some l => decide (0 < l.length)
      | none => false
    let hasPastes := match resp.exposedPastes with
      | some l => decide (0 < l.length)
      | none => false
    .ok ⟨email, hasBreaches || hasPastes, some resp⟩
  | .error e => if e.isNotFound then .ok ⟨email, false, none⟩ else .error e

/-! ## Derived notions used by the statements -/

/-- The error the catch block receives for one attempt, assuming the attempt
neither aborts nor succeeds: a transport rejection as caught, a resolved
response classified by `handleResponse` (`none` when it succeeds). -/
def attemptCaught : FetchBehavior → Option CaughtError
  | .fails nm m _ => some (.transport ⟨nm, m⟩)
  | .responds resp _ =>
    match handleResponse resp with
    | .ok _ => none
    | .error e => some (.classified e)

/-- Whether a caught error lets the loop continue to the next attempt:
not rethrown by the 4xx-non-rate-limit check and not an `AbortError`. -/
def retryableCaught : CaughtError → Bool
  | .classified e => !throwsNoRetry e && !(e.jsName == "AbortError")
  | .transport t => !(t.name == "AbortError")

/-- Whether an outcome is a `TimeoutError`. -/
def outcomeIsTimeout : Except XonError Json → Bool
  | .error (.timeout _) => true
  | _ => false

/-- Total backoff the loop would sleep over attempts `k+1 .. k+f` (each
intermediate attempt sleeps `backoffDelay` of its 1-indexed number). -/
def sumBackoffFrom (k : Nat) : Nat → Nat
  | 0 => 0
  | f + 1 => backoffDelay (k + 1) + sumBackoffFrom (k + 1) f

/-- The backoff delays slept after attempts `k+1 .. k+f`. -/
def backoffSeq (k f : Nat) : List Nat :=
  (List.range f).map (fun i => backoffDelay (k + 1 + i))

/-! ## Scenario constants used by witnesses and counterexamples -/

/-- A 500 response with a JSON body `{}`. -/
def resp500 : Response := ⟨500, some "application/json", some (.obj []), ""⟩

/-- A 429 response with JSON body `{"retry_after": 60}`. -/
def resp429 : Response := ⟨429, some "application/json", some (.obj [("retry_after", .num 60)]), ""⟩

/-- A 404 response with a plain-text body. -/
def resp404 : Response := ⟨404, none, none, "nf"⟩

/-- Environment for the C2 counterexample: attempt 1 receives a 500 instantly;
attempt 2 receives a 500 only after 5000 ms. -/
def c2Beh : Nat → FetchBehavior :=
  fun a => if a = 1 then .responds resp500 0 else .responds resp500 5000

/-- A transport that always fails instantly with a `TypeError`. -/
def behFailsTE : Nat → FetchBehavior := fun _ => .fails "TypeError" "connection refused" 0

/-- A transport that always returns `resp429` instantly. -/
def beh429 : Nat → FetchBehavior := fun _ => .responds resp429 0

/-- A transport that always returns `resp404` instantly. -/
def beh404 : Nat → FetchBehavior := fun _ => .responds resp404 0

/-- Query params used by the C9 witness. -/
def c9Params : List (String × ParamValue) := [("a", .str "1"), ("b", .undef), ("c", .bool true)]

/-- Modelled from the spec (amended): a configuration is valid iff the
resolved base URL parses with the `https:` protocol, the resolved timeout is a
(finite) number in [1000, 300000], and the resolved retries value is an
integer in [0, 10]. -/
def configValidSpec (cfg : XonConfigInput) : Bool :=
  (urlProtocol (cfg.baseUrl.getD "https://api.xposedornot.com") == some "https:") &&
  decide (1000 ≤ cfg.timeoutMs.getD 30000) && decide (cfg.timeoutMs.getD 30000 ≤ 300000) &&
  (cfg.retries.getD 3).isInt && decide (0 ≤ cfg.retries.getD 3) &&
  decide (cfg.retries.getD 3 ≤ 10)

/-- Whether config resolution failed with a `ValidationError`. -/
def resolveIsValidationError : Except XonError ResolvedConfig → Bool
  | .error (.validation _ _) => true
  | _ => false

/-- The non-integral number 2000.5 (as a rational). -/
def halfMs : ℚ := Rat.mk' 4001 2 (by decide) (by decide)

/-! ## Helper lemmas about the retry loop -/

lemma backoffSeq_succ (k f : Nat) :
    backoffSeq k (f + 1) = backoffDelay (k + 1) :: backoffSeq (k + 1) f := by
  simp only [backoffSeq, List.range_succ_eq_map, List.map_cons, List.map_map]
  refine congrArg₂ _ (by simp) ?_
  refine congrArg₂ _ ?_ rfl
  funext i
  simp only [Function.comp_apply]
  congr 1
  omega

/-- Unfolding lemma: a response status that is neither 304 nor ok classifies. -/
lemma handleResponse_error (resp : Response) (h304 : resp.status ≠ 304)
    (hok : responseOk resp.status = false) :
    handleResponse resp = .error (handleErrorResponse resp.status (decodeBody resp)) := by
  simp [handleResponse, h304, hok]


lemma jsName_ne_abort (e : XonError) : e.jsName ≠ "AbortError" := by
  cases e <;> simp [XonError.jsName]

lemma step_fails_armed_retry (timeoutMs retries : Nat) (beh : Nat → FetchBehavior)
    (fuel attempt elapsed : Nat) (lastE : Option CaughtError) (delays : List Nat)
    (nm m : String) (d : Nat)
    (hb : beh (attempt + 1) = .fails nm m d)
    (h0 : ¬timeoutMs ≤ elapsed + d)
    (hA : nm ≠ "AbortError")
    (hf : fuel ≠ 0) :
    loopGo timeoutMs retries beh (fuel + 1) attempt elapsed .armed lastE delays =
      loopGo timeoutMs retries beh fuel (attempt + 1)
        (elapsed + d + backoffDelay (attempt + 1))
        (if timeoutMs ≤ elapsed + d + backoffDelay (attempt + 1) then .fired else .armed)
        (some (.transport ⟨nm, m⟩)) (delays ++ [backoffDelay (attempt + 1)]) := by
  simp [loopGo, hb, h0, CaughtError.errName, hA, hf]

lemma step_fails_armed_last (timeoutMs retries : Nat) (beh : Nat → FetchBehavior)
    (attempt elapsed : Nat) (lastE : Option CaughtError) (delays : List Nat)
    (nm m : String) (d : Nat)
    (hb : beh (attempt + 1) = .fails nm m d)
    (h0 : ¬timeoutMs ≤ elapsed + d)
    (hA : nm ≠ "AbortError") :
    loopGo timeoutMs retries beh 1 attempt elapsed .armed lastE delays =
      ⟨.error (finishExhausted retries (some (.transport ⟨nm, m⟩))), attempt + 1, delays⟩ := by
  simp [loopGo, hb, h0, CaughtError.errName, hA]

lemma step_caught_cleared_retry (timeoutMs retries : Nat) (beh : Nat → FetchBehavior)
    (fuel attempt elapsed : Nat) (lastE : Option CaughtError) (delays : List Nat)
    (err : CaughtError)
    (hc : attemptCaught (beh (attempt + 1)) = some err)
    (hr : retryableCaught err = true)
    (hf : fuel ≠ 0) :
    loopGo timeoutMs retries beh (fuel + 1) attempt elapsed .cleared lastE delays =
      loopGo timeoutMs retries beh fuel (attempt + 1)
        (elapsed + (beh (attempt + 1)).dur + backoffDelay (attempt + 1)) .cleared
        (some err) (delays ++ [backoffDelay (attempt + 1)]) := by
  cases hbeh : beh (attempt + 1) with
  | fails nm m d =>
    rw [hbeh] at hc
    simp only [attemptCaught, Option.some.injEq] at hc
    subst hc
    simp only [retryableCaught, Bool.not_eq_true', beq_eq_false_iff_ne] at hr
    simp [loopGo, hbeh, CaughtError.errName, hr, hf, FetchBehavior.dur]
  | responds resp d =>
    rw [hbeh] at hc
    cases hres : handleResponse resp with
    | ok v => simp [attemptCaught, hres] at hc
    | error e =>
      simp only [attemptCaught, hres, Option.some.injEq] at hc
      subst hc
      simp only [retryableCaught, Bool.and_eq_true, Bool.not_eq_true', beq_eq_false_iff_ne] at hr
      simp [loopGo, hbeh, hres, CaughtError.errName, hr.1, hr.2, hf, FetchBehavior.dur]

lemma step_caught_cleared_last (timeoutMs retries : Nat) (beh : Nat → FetchBehavior)
    (attempt elapsed : Nat) (lastE : Option CaughtError) (delays : List Nat)
    (err : CaughtError)
    (hc : attemptCaught (beh (attempt + 1)) = some err)
    (hr : retryableCaught err = true) :
    loopGo timeoutMs retries beh 1 attempt elapsed .cleared lastE delays =
      ⟨.error (finishExhausted retries (some err)), attempt + 1, delays⟩ := by
  cases hbeh : beh (attempt + 1) with
  | fails nm m d =>
    rw [hbeh] at hc
    simp only [attemptCaught, Option.some.injEq] at hc
    subst hc
    simp only [retryableCaught, Bool.not_eq_true', beq_eq_false_iff_ne] at hr
    simp [loopGo, hbeh, CaughtError.errName, hr]
  | responds resp d =>
    rw [hbeh] at hc
    cases hres : handleResponse resp with
    | ok v => simp [attemptCaught, hres] at hc
    | error e =>
      simp only [attemptCaught, hres, Option.some.injEq] at hc
      subst hc
      simp only [retryableCaught, Bool.and_eq_true, Bool.not_eq_true', beq_eq_false_iff_ne] at hr
      simp [loopGo, hbeh, hres, CaughtError.errName, hr.1, hr.2]

lemma step_resp_armed_retry (timeoutMs retries : Nat) (beh : Nat → FetchBehavior)
    (fuel attempt elapsed : Nat) (lastE : Option CaughtError) (delays : List Nat)
    (resp : Response) (d : Nat) (e : XonError)
    (hb : beh (attempt + 1) = .responds resp d)
    (h0 : ¬timeoutMs ≤ elapsed + d)
    (hres : handleResponse resp = .error e)
    (hth : throwsNoRetry e = false)
    (hf : fuel ≠ 0) :
    loopGo timeoutMs retries beh (fuel + 1) attempt elapsed .armed lastE delays =
      loopGo timeoutMs retries beh fuel (attempt + 1)
        (elapsed + d + backoffDelay (attempt + 1)) .cleared
        (some (.classified e)) (delays ++ [backoffDelay (attempt + 1)]) := by
  simp [loopGo, hb, h0, hres, hth, CaughtError.errName, jsName_ne_abort e, hf]

lemma step_resp_armed_last (timeoutMs retries : Nat) (beh : Nat → FetchBehavior)
    (attempt elapsed : Nat) (lastE : Option CaughtError) (delays : List Nat)
    (resp : Response) (d : Nat) (e : XonError)
    (hb : beh (attempt + 1) = .responds resp d)
    (h0 : ¬timeoutMs ≤ elapsed + d)
    (hres : handleResponse resp = .error e)
    (hth : throwsNoRetry e = false) :
    loopGo timeoutMs retries beh 1 attempt elapsed .armed lastE delays =
      ⟨.error e, attempt + 1, delays⟩ := by
  simp [loopGo, hb, h0, hres, hth, CaughtError.errName, jsName_ne_abort e, finishExhausted]

lemma loopGo_allFails (timeoutMs retries : Nat) (beh : Nat → FetchBehavior)
    (nm ms : Nat → String)
    (hb : ∀ a, beh a = .fails (nm a) (ms a) 0)
    (hA : ∀ a, nm a ≠ "AbortError") :
    ∀ f k elapsed lastE delays,
      elapsed + sumBackoffFrom k f < timeoutMs →
      loopGo timeoutMs retries beh (f + 1) k elapsed .armed lastE delays =
        ⟨.error (.network
            ("Request failed after " ++ toString retries ++ " attempts: " ++ ms (k + f + 1))
            (some ⟨nm (k + f + 1), ms (k + f + 1)⟩)),
          k + f + 1, delays ++ backoffSeq k f⟩ := by
  intro f
  induction f with
  | zero =>
    intro k elapsed lastE delays h
    have h0 : ¬timeoutMs ≤ elapsed + 0 := by
      simp only [sumBackoffFrom] at h
      omega
    rw [step_fails_armed_last timeoutMs retries beh k elapsed lastE delays _ _ _ (hb (k + 1)) h0 (hA (k + 1))]
    simp [finishExhausted, backoffSeq]
  | succ f ih =>
    intro k elapsed lastE delays h
    have hsum : sumBackoffFrom k (f + 1) = backoffDelay (k + 1) + sumBackoffFrom (k + 1) f := rfl
    rw [hsum] at h
    have h0 : ¬timeoutMs ≤ elapsed + 0 := by omega
    have h3 : ¬timeoutMs ≤ elapsed + 0 + backoffDelay (k + 1) := by omega
    rw [step_fails_armed_retry timeoutMs retries beh (f + 1) k elapsed lastE delays _ _ _ (hb (k + 1)) h0 (hA (k + 1)) (Nat.succ_ne_zero f)]
    rw [if_neg h3]
    rw [ih (k + 1) (elapsed + 0 + backoffDelay (k + 1)) (some (.transport ⟨nm (k + 1), ms (k + 1)⟩)) (delays ++ [backoffDelay (k + 1)]) (by omega)]
    have hidx : k + 1 + f + 1 = k + (f + 1) + 1 := by omega
    rw [hidx, backoffSeq_succ]
    simp

lemma loopGo_clearedRetryable (timeoutMs retries : Nat) (beh : Nat → FetchBehavior)
    (err : Nat → CaughtError)
    (hc : ∀ a, attemptCaught (beh a) = some (err a))
    (hr : ∀ a, retryableCaught (err a) = true) :
    ∀ f k elapsed lastE delays,
      loopGo timeoutMs retries beh (f + 1) k elapsed .cleared lastE delays =
        ⟨.error (finishExhausted retries (some (err (k + f + 1)))), k + f + 1,
          delays ++ backoffSeq k f⟩ := by
  intro f
  induction f with
  | zero =>
    intro k elapsed lastE delays
    rw [step_caught_cleared_last timeoutMs retries beh k elapsed lastE delays _ (hc (k + 1)) (hr (k + 1))]
    simp [backoffSeq]
  | succ f ih =>
    intro k elapsed lastE delays
    rw [step_caught_cleared_retry timeoutMs retries beh (f + 1) k elapsed lastE delays _ (hc (k + 1)) (hr (k + 1)) (Nat.succ_ne_zero f)]
    rw [ih (k + 1) (elapsed + (beh (k + 1)).dur + backoffDelay (k + 1)) (some (err (k + 1))) (delays ++ [backoffDelay (k + 1)])]
    have hidx : k + 1 + f + 1 = k + (f + 1) + 1 := by omega
    rw [hidx, backoffSeq_succ]
    simp

lemma httpRequest_allFails (timeoutMs n : Nat) (beh : Nat → FetchBehavior)
    (nm ms : Nat → String)
    (hb : ∀ a, beh a = .fails (nm a) (ms a) 0)
    (hA : ∀ a, nm a ≠ "AbortError")
    (h1 : 1 ≤ n)
    (h2 : sumBackoffFrom 0 (n - 1) < timeoutMs) :
    httpRequest timeoutMs n beh =
      ⟨.error (.network
          ("Request failed after " ++ toString n ++ " attempts: " ++ ms n)
          (some ⟨nm n, ms n⟩)),
        n, backoffSeq 0 (n - 1)⟩ := by
  obtain ⟨m, rfl⟩ : ∃ m, n = m + 1 := ⟨n - 1, by omega⟩
  have := loopGo_allFails timeoutMs (m + 1) beh nm ms hb hA m 0 0 none [] (by simpa using h2)
  simpa [httpRequest] using this

lemma httpRequest_allRespondsError (timeoutMs n : Nat) (beh : Nat → FetchBehavior)
    (r : Nat → Response) (e : Nat → XonError)
    (hb : ∀ a, beh a = .responds (r a) 0)
    (he : ∀ a, handleResponse (r a) = .error (e a))
    (hth : ∀ a, throwsNoRetry (e a) = false)
    (h1 : 1 ≤ n) (ht : 1 ≤ timeoutMs) :
    httpRequest timeoutMs n beh = ⟨.error (e n), n, backoffSeq 0 (n - 1)⟩ := by
  obtain ⟨m, rfl⟩ : ∃ m, n = m + 1 := ⟨n - 1, by omega⟩
  have h0 : ¬timeoutMs ≤ 0 + 0 := by omega
  match m with
  | 0 =>
    have := step_resp_armed_last timeoutMs 1 beh 0 0 none [] (r 1) 0 (e 1) (hb 1) h0 (he 1) (hth 1)
    simpa [httpRequest, backoffSeq] using this
  | m' + 1 =>
    have hstep := step_resp_armed_retry timeoutMs (m' + 2) beh (m' + 1) 0 0 none [] (r 1) 0 (e 1) (hb 1) h0 (he 1) (hth 1) (Nat.succ_ne_zero m')
    have hrest := loopGo_clearedRetryable timeoutMs (m' + 2) beh
      (fun a => .classified (e a))
      (fun a => by simp [attemptCaught, hb a, he a])
      (fun a => by simp [retryableCaught, hth a, jsName_ne_abort (e a)])
      m' 1 (0 + 0 + backoffDelay 1) (some (.classified (e 1))) [backoffDelay 1]
    have hidx : 1 + m' + 1 = m' + 2 := by omega
    rw [hidx] at hrest
    have hseq : backoffDelay 1 :: backoffSeq 1 m' = backoffSeq 0 (m' + 1) := by
      rw [backoffSeq_succ]
    simp only [httpRequest]
    simp only [Nat.zero_add, Nat.add_zero, List.nil_append] at hstep hrest ⊢
    rw [hstep, hrest]
    simp [finishExhausted, ← hseq]

lemma throwsNoRetry_hdl500 (d : Json) : throwsNoRetry (handleErrorResponse 500 d) = false := rfl

lemma backoffSeq_zero_formula (f : Nat) :
    backoffSeq 0 f = (List.range f).map (fun i => min (1000 * 2 ^ i) 10000) := by
  unfold backoffSeq
  congr 1
  funext i
  have h : 0 + 1 + i = i + 1 := by omega
  rw [h]
  rfl

lemma validateBaseUrl_https (u : String) (hu : urlProtocol u = some "https:") :
    validateBaseUrl u = none := by
  unfold validateBaseUrl
  rw [hu]
  simp

/-- `setEntry` appends when the key is fresh. -/
lemma setEntry_of_fresh (acc : List (String × String)) (k v : String)
    (h : ∀ p ∈ acc, p.1 ≠ k) : setEntry acc k v = acc ++ [(k, v)] := by
  unfold setEntry
  rw [if_neg]
  simp only [List.any_eq_true, decide_eq_true_eq, not_exists]
  intro p hp
  exact h p hp.1 hp.2

lemma buildFold_fresh :
    ∀ (params : List (String × ParamValue)) (acc : List (String × String)),
      (params.map Prod.fst).Nodup →
      (∀ k ∈ params.map Prod.fst, ∀ p ∈ acc, p.1 ≠ k) →
      params.foldl
          (fun acc kv =>
            match kv.2 with
            | .undef => acc
            | v => setEntry acc kv.1 (jsStringOf v)) acc
        = acc ++ (params.filter (fun p => p.2 != ParamValue.undef)).map
            (fun p => (p.1, jsStringOf p.2))
  | [], acc, _, _ => by simp
  | (k, v) :: rest, acc, hnd, hdisj => by
    simp only [List.map_cons, List.nodup_cons] at hnd
    obtain ⟨hk, hnd'⟩ := hnd
    cases v with
    | undef =>
      simp only [List.foldl_cons, List.filter_cons]
      rw [buildFold_fresh rest acc hnd'
        (fun k' hk' p hp => hdisj k' (List.mem_cons_of_mem _ hk') p hp)]
      simp
    | str sv =>
      simp only [List.foldl_cons, List.filter_cons]
      rw [setEntry_of_fresh acc k (jsStringOf (.str sv))
        (fun p hp => hdisj k (List.mem_cons_self _ _) p hp)]
      rw [buildFold_fresh rest (acc ++ [(k, jsStringOf (.str sv))]) hnd' ?fresh]
      · simp
      case fresh =>
        intro k' hk' p hp
        rcases List.mem_append.mp hp with hin | hin
        · exact hdisj k' (List.mem_cons_of_mem _ hk') p hin
        · simp only [List.mem_singleton] at hin
          subst hin
          intro hkk
          refine hk ?_
          rw [show k = k' from hkk]
          exact hk'
    | bool bv =>
      simp only [List.foldl_cons, List.filter_cons]
      rw [setEntry_of_fresh acc k (jsStringOf (.bool bv))
        (fun p hp => hdisj k (List.mem_cons_self _ _) p hp)]
      rw [buildFold_fresh rest (acc ++ [(k, jsStringOf (.bool bv))]) hnd' ?fresh2]
      · simp
      case fresh2 =>
        intro k' hk' p hp
        rcases List.mem_append.mp hp with hin | hin
        · exact hdisj k' (List.mem_cons_of_mem _ hk') p hin
        · simp only [List.mem_singleton] at hin
          subst hin
          intro hkk
          refine hk ?_
          rw [show k = k' from hkk]
          exact hk'

/-- `validateTimeout` on an out-of-range value. -/
lemma validateTimeout_bad (t : ℚ) (h : t < 1000 ∨ t > 300000) :
    validateTimeout t = some (.validation
      ("Invalid timeout: must be between 1000ms and 300000ms (got " ++ toString t ++ "ms)")
      (some "timeout")) :=
  if_pos h

/-- `validateTimeout` on an in-range value. -/
lemma validateTimeout_ok (t : ℚ) (h : ¬(t < 1000 ∨ t > 300000)) : validateTimeout t = none :=
  if_neg h

/-- `validateRetries` on a non-integer. -/
lemma validateRetries_notInt (r : ℚ) (h : r.isInt = false) :
    validateRetries r = some (.validation "Invalid retries: must be an integer" (some "retries")) := by
  unfold validateRetries
  rw [if_pos]
  simp [h]

/-- `validateRetries` on an out-of-range integer. -/
lemma validateRetries_bad (r : ℚ) (hi : r.isInt = true) (h : r < 0 ∨ r > 10) :
    validateRetries r = some (.validation
      ("Invalid retries: must be between 0 and 10 (got " ++ toString r ++ ")")
      (some "retries")) := by
  unfold validateRetries
  rw [if_neg (by simp [hi]), if_pos h]

/-- `validateRetries` on an in-range integer. -/
lemma validateRetries_ok (r : ℚ) (hi : r.isInt = true) (h : ¬(r < 0 ∨ r > 10)) :
    validateRetries r = none := by
  unfold validateRetries
  rw [if_neg (by simp [hi]), if_neg h]

/-! ## Claim theorems -/

/-- C1 (code bug): with `maxRetries = 0` the executor is claimed to make
exactly one attempt; the code's `while (attempt < retries)` loop instead makes
zero transport attempts and always fails with
`NetworkError "Request failed after 0 attempts: undefined"`, for every
timeout and every transport behaviour. -/
theorem c1_zero_retries_zero_attempts (timeoutMs : Nat) (beh : Nat → FetchBehavior) :
    (httpRequest timeoutMs 0 beh).attempts = 0 ∧
    (httpRequest timeoutMs 0 beh).outcome =
      .error (.network "Request failed after 0 attempts: undefined" none) :=
  ⟨rfl, rfl⟩

/-- C2 (counterexample): with `timeoutMs = 1000`, `maxRetries = 2` and the
environment `c2Beh`, attempt 1 receives a 500 instantly (clearing the timer),
the loop sleeps 1000 ms, and attempt 2 is in flight from elapsed time 1000
(= `timeoutMs`) until 6000 — yet it is not aborted: the request makes both
attempts and fails with the classified 500 `Api` error, not `Timeout`,
contradicting the claim that reaching `timeoutMs` mid-flight always aborts. -/
theorem c2_counterexample :
    (httpRequest 1000 2 c2Beh).attempts = 2 ∧
    (httpRequest 1000 2 c2Beh).delays = [1000] ∧
    (c2Beh 2).dur = 5000 ∧
    outcomeIsTimeout (httpRequest 1000 2 c2Beh).outcome = false ∧
    (httpRequest 1000 2 c2Beh).outcome =
      .error (.api "An unknown error occurred" 500 (.obj [])) :=
  ⟨rfl, rfl, rfl, rfl, rfl⟩

/-- C2 (amended): the single cancellation signal bounds the logical request
only while the timer is still armed (no attempt has yet resolved with a
response): in any loop state with an armed timer, if the next attempt would
still be in flight when total elapsed time reaches `timeoutMs`, that attempt
is aborted and the executor fails with `Timeout` immediately, regardless of
how many retries remain and with no further backoff. -/
theorem c2_armed_timer_bounds_request (timeoutMs retries fuel attempt elapsed : Nat)
    (beh : Nat → FetchBehavior) (lastE : Option CaughtError) (delays : List Nat)
    (h : timeoutMs ≤ elapsed + (beh (attempt + 1)).dur) :
    loopGo timeoutMs retries beh (fuel + 1) attempt elapsed .armed lastE delays =
      ⟨.error (.timeout ("Request timed out after " ++ toString timeoutMs ++ "ms")),
        attempt + 1, delays⟩ := by
  cases hb : beh (attempt + 1) with
  | fails nm m d =>
    rw [hb] at h
    simp only [FetchBehavior.dur] at h
    simp [loopGo, hb, h, CaughtError.errName]
  | responds resp d =>
    rw [hb] at h
    simp only [FetchBehavior.dur] at h
    simp [loopGo, hb, h, CaughtError.errName]

/-- Witness for C2 (amended) at a concrete input: timer armed, attempt takes
1000 ms with `timeoutMs = 1000`, 4 units of fuel remaining. -/
theorem c2_armed_timer_bounds_request_witness :
    loopGo 1000 5 (fun _ => FetchBehavior.fails "TypeError" "boom" 1000) 4 0 0 .armed none [] =
      ⟨.error (.timeout "Request timed out after 1000ms"), 1, []⟩ :=
  c2_armed_timer_bounds_request 1000 5 3 0 0 _ none [] (by decide)

/-- C3: for every `maxRetries = n ≥ 1`, a transport failing retryably on every
attempt causes exactly `n` attempts; a raw transport error is wrapped as a
`Network` error preserving the original message and underlying cause, while an
already classified retryable error (a 5xx `Api` error) is surfaced as-is. -/
theorem c3_retry_exhaustion (n timeoutMs : Nat) (nm ms : Nat → String)
    (behT behR : Nat → FetchBehavior) (r : Nat → Response) :
    (1 ≤ n → (∀ a, behT a = .fails (nm a) (ms a) 0) → (∀ a, nm a ≠ "AbortError") →
      sumBackoffFrom 0 (n - 1) < timeoutMs →
      httpRequest timeoutMs n behT =
        ⟨.error (.network ("Request failed after " ++ toString n ++ " attempts: " ++ ms n)
            (some ⟨nm n, ms n⟩)), n, backoffSeq 0 (n - 1)⟩) ∧
    (1 ≤ n → 1 ≤ timeoutMs → (∀ a, behR a = .responds (r a) 0) → (∀ a, (r a).status = 500) →
      httpRequest timeoutMs n behR =
        ⟨.error (handleErrorResponse 500 (decodeBody (r n))), n, backoffSeq 0 (n - 1)⟩) := by
  constructor
  · intro h1 hb hA h2
    exact httpRequest_allFails timeoutMs n behT nm ms hb hA h1 h2
  · intro h1 ht hb hs
    refine httpRequest_allRespondsError timeoutMs n behR r
      (fun a => handleErrorResponse 500 (decodeBody (r a))) hb ?_ ?_ h1 ht
    · intro a
      have h304 : (r a).status ≠ 304 := by rw [hs a]; decide
      have hok : responseOk (r a).status = false := by rw [hs a]; decide
      rw [handleResponse_error (r a) h304 hok, hs a]
    · intro a
      exact throwsNoRetry_hdl500 (decodeBody (r a))

/-- Witness for C3 at `n = 2`: two transport failures yield the wrapped
`Network` error with cause after 2 attempts; two 500 responses yield the last
classified `Api` error after 2 attempts. -/
theorem c3_retry_exhaustion_witness :
    httpRequest 30000 2 behFailsTE =
      ⟨.error (.network "Request failed after 2 attempts: connection refused"
          (some ⟨"TypeError", "connection refused"⟩)), 2, [1000]⟩ ∧
    httpRequest 30000 2 (fun _ => .responds resp500 0) =
      ⟨.error (.api "An unknown error occurred" 500 (.obj [])), 2, [1000]⟩ := by
  have h := c3_retry_exhaustion 2 30000 (fun _ => "TypeError") (fun _ => "connection refused")
    behFailsTE (fun _ => .responds resp500 0) (fun _ => resp500)
  exact ⟨h.1 (by decide) (fun _ => rfl) (fun _ => by decide) (by decide),
    h.2 (by decide) (by decide) (fun _ => rfl) (fun _ => rfl)⟩

/-- C4: a resolved response classified as a 4xx error other than 429 (which
includes 401 → `Authentication` and 404 → `NotFound`) aborts the loop on that
very attempt: the classified error is surfaced immediately, regardless of the
fuel (remaining attempts) and with the backoff-delay list unchanged. -/
theorem c4_4xx_no_retry (timeoutMs retries fuel attempt elapsed : Nat) (timer : TimerState)
    (beh : Nat → FetchBehavior) (lastE : Option CaughtError) (delays : List Nat)
    (resp : Response) (d : Nat) (e : XonError) (body : Json)
    (hb : beh (attempt + 1) = .responds resp d)
    (ht : timer ≠ .fired)
    (ha : timer = .armed → elapsed + d < timeoutMs)
    (hres : handleResponse resp = .error e)
    (hx : throwsNoRetry e = true) :
    loopGo timeoutMs retries beh (fuel + 1) attempt elapsed timer lastE delays =
      ⟨.error e, attempt + 1, delays⟩ ∧
    handleErrorResponse 401 body = .authentication (extractErrorMessage body) ∧
    handleErrorResponse 404 body = .notFound (extractErrorMessage body) := by
  refine ⟨?_, rfl, rfl⟩
  cases timer with
  | fired => exact absurd rfl ht
  | cleared => simp [loopGo, hb, hres, hx]
  | armed =>
    have h0 := Nat.not_le.mpr (ha rfl)
    simp [loopGo, hb, h0, hres, hx]

/-- Witness for C4: a 404 on the first attempt with `maxRetries = 5` and 5
units of fuel surfaces `NotFound` after exactly one attempt, no delays. -/
theorem c4_4xx_no_retry_witness :
    loopGo 30000 5 beh404 5 0 0 .armed none [] = ⟨.error (.notFound "nf"), 1, []⟩ ∧
    handleErrorResponse 401 Json.null = .authentication (extractErrorMessage Json.null) ∧
    handleErrorResponse 404 Json.null = .notFound (extractErrorMessage Json.null) :=
  c4_4xx_no_retry 30000 5 4 0 0 .armed beh404 none [] resp404 0 (.notFound "nf") Json.null
    rfl (by decide) (fun _ => by decide) rfl (by decide)

/-- C5: a 429 is classified as `RateLimit` carrying the retry-after extracted
from the body (snake_case first, then camelCase, numeric values only), it is
not excluded from retry (sole 4xx exception), and a transport answering 429
with body `{"retry_after": 60}` on every attempt is retried `maxRetries` times
before the `RateLimit` error carrying `retryAfter = 60` surfaces. -/
theorem c5_429_ratelimit_retried (n timeoutMs : Nat) (beh : Nat → FetchBehavior) (data : Json) :
    handleErrorResponse 429 data = .rateLimit (extractErrorMessage data) (extractRetryAfter data) ∧
    extractRetryAfter (.obj [("retry_after", .num 60)]) = some 60 ∧
    extractRetryAfter (.obj [("retryAfter", .num 42)]) = some 42 ∧
    extractRetryAfter (.obj [("retry_after", .num 60), ("retryAfter", .num 30)]) = some 60 ∧
    throwsNoRetry (.rateLimit (extractErrorMessage data) (extractRetryAfter data)) = false ∧
    (1 ≤ n → 1 ≤ timeoutMs → (∀ a, beh a = .responds resp429 0) →
      httpRequest timeoutMs n beh =
        ⟨.error (.rateLimit "An unknown error occurred" (some 60)), n, backoffSeq 0 (n - 1)⟩) := by
  refine ⟨rfl, rfl, rfl, rfl, rfl, ?_⟩
  intro h1 ht hb
  exact httpRequest_allRespondsError timeoutMs n beh (fun _ => resp429)
    (fun _ => .rateLimit "An unknown error occurred" (some 60)) hb (fun _ => rfl) (fun _ => rfl)
    h1 ht

/-- Witness for C5: three attempts all hitting 429 with `{"retry_after": 60}`
exhaust `maxRetries = 3` and surface `RateLimit` with `retryAfter = 60`. -/
theorem c5_429_ratelimit_retried_witness :
    httpRequest 30000 3 beh429 =
      ⟨.error (.rateLimit "An unknown error occurred" (some 60)), 3, [1000, 2000]⟩ :=
  (c5_429_ratelimit_retried 3 30000 beh429 Json.null).2.2.2.2.2
    (by decide) (by decide) (fun _ => rfl)

/-- C6: the backoff delays are `min(1000·2^(attempt−1), 10000)` ms — 1000,
2000, 4000, 8000 for attempts 1–4 and capped at 10000 from attempt 5 on — and
a run of `n` always-failing attempts sleeps exactly the first `n − 1` of them
(never after the final attempt). -/
theorem c6_backoff_schedule (a n timeoutMs : Nat) (nm ms : Nat → String)
    (beh : Nat → FetchBehavior) :
    backoffDelay 1 = 1000 ∧ backoffDelay 2 = 2000 ∧ backoffDelay 3 = 4000 ∧
    backoffDelay 4 = 8000 ∧
    (5 ≤ a → backoffDelay a = 10000) ∧
    backoffDelay a = min (1000 * 2 ^ (a - 1)) 10000 ∧
    (1 ≤ n → (∀ i, beh i = .fails (nm i) (ms i) 0) → (∀ i, nm i ≠ "AbortError") →
      sumBackoffFrom 0 (n - 1) < timeoutMs →
      (httpRequest timeoutMs n beh).delays =
        (List.range (n - 1)).map (fun i => min (1000 * 2 ^ i) 10000) ∧
      (httpRequest timeoutMs n beh).delays.length = n - 1) := by
  refine ⟨rfl, rfl, rfl, rfl, ?_, rfl, ?_⟩
  · intro h5
    have h4 : 4 ≤ a - 1 := by omega
    have hpow : (2 : Nat) ^ 4 ≤ 2 ^ (a - 1) := Nat.pow_le_pow_right (by norm_num) h4
    have hbig : 10000 ≤ 1000 * 2 ^ (a - 1) :=
      le_trans (by norm_num) (Nat.mul_le_mul_left 1000 hpow)
    simpa [backoffDelay] using min_eq_right hbig
  · intro h1 hb hA h2
    rw [httpRequest_allFails timeoutMs n beh nm ms hb hA h1 h2]
    constructor
    · exact backoffSeq_zero_formula (n - 1)
    · simp [backoffSeq]

/-- Witness for C6: the cap holds at attempt 7, and a 3-attempt all-failing
run sleeps exactly [1000, 2000]. -/
theorem c6_backoff_schedule_witness :
    backoffDelay 7 = 10000 ∧
    (httpRequest 30000 3 behFailsTE).delays = [1000, 2000] ∧
    (httpRequest 30000 3 behFailsTE).delays.length = 2 := by
  have h := c6_backoff_schedule 7 3 30000 (fun _ => "TypeError") (fun _ => "connection refused")
    behFailsTE
  have hloop := h.2.2.2.2.2.2 (by decide) (fun _ => rfl) (fun _ => by decide) (by decide)
  exact ⟨h.2.2.2.2.1 (by decide), hloop.1, hloop.2⟩

/-- C8: a 304 response is success with an empty result independent of the body
(no decode attempted); a 2xx response with a JSON content type decodes to the
JSON body with parse failure yielding `null` (not an error); a 2xx response
with any other content type yields the raw text. -/
theorem c8_response_decoding (st : Nat) (ct : Option String) (jb : Option Json) (tb : String) :
    handleResponse ⟨304, ct, jb, tb⟩ = .ok (.obj []) ∧
    (200 ≤ st → st ≤ 299 → contentTypeIsJson ct = true →
      handleResponse ⟨st, ct, jb, tb⟩ = .ok (jb.getD Json.null)) ∧
    (200 ≤ st → st ≤ 299 → contentTypeIsJson ct = false →
      handleResponse ⟨st, ct, jb, tb⟩ = .ok (.str tb)) := by
  refine ⟨rfl, ?_, ?_⟩ <;> intro h1 h2 hct <;>
    · have h304 : st ≠ 304 := by omega
      have hok : responseOk st = true := by
        simp only [responseOk, decide_eq_true_eq]
        omega
      simp [handleResponse, h304, hok, decodeBody, hct]

/-- Witness for C8 at concrete responses: a 304 with a JSON body decodes to
the empty object; a 200 JSON response whose body fails to parse yields `null`;
a 204 text response yields the raw text. -/
theorem c8_response_decoding_witness :
    handleResponse ⟨304, some "application/json", some (.num 1), "zz"⟩ = .ok (.obj []) ∧
    handleResponse ⟨200, some "application/json", none, "zz"⟩ = .ok Json.null ∧
    handleResponse ⟨204, some "text/plain", some (.num 1), "zz"⟩ = .ok (.str "zz") :=
  ⟨(c8_response_decoding 200 (some "application/json") (some (.num 1)) "zz").1,
    (c8_response_decoding 200 (some "application/json") none "zz").2.1
      (by decide) (by decide) (by decide),
    (c8_response_decoding 204 (some "text/plain") (some (.num 1)) "zz").2.2
      (by decide) (by decide) (by decide)⟩

/-- C10: both endpoint wrappers absorb a `NotFoundError` from the executor
into a successful not-found result — `{email, found: false, breaches: []}`
for `checkEmail` and `{email, found: false, analytics: null}` for
`getBreachAnalytics` — and rethrow every other classified error unchanged. -/
theorem c10_notfound_absorbed (email m : String) (e : XonError) :
    checkEmailHandle email (.error (.notFound m)) = .ok ⟨email, false, []⟩ ∧
    (e.isNotFound = false → checkEmailHandle email (.error e) = .error e) ∧
    getBreachAnalyticsHandle email (.error (.notFound m)) = .ok ⟨email, false, none⟩ ∧
    (e.isNotFound = false → getBreachAnalyticsHandle email (.error e) = .error e) := by
  refine ⟨rfl, ?_, rfl, ?_⟩ <;> intro h <;>
    simp [checkEmailHandle, getBreachAnalyticsHandle, h]

/-- Witness for C10: `NotFoundError` is absorbed, a `TimeoutError` is
rethrown, for both endpoints. -/
theorem c10_notfound_absorbed_witness :
    checkEmailHandle "user@example.com" (.error (.notFound "Not found")) =
      .ok ⟨"user@example.com", false, []⟩ ∧
    checkEmailHandle "user@example.com" (.error (.timeout "t")) = .error (.timeout "t") ∧
    getBreachAnalyticsHandle "user@example.com" (.error (.notFound "Not found")) =
      .ok ⟨"user@example.com", false, none⟩ ∧
    getBreachAnalyticsHandle "user@example.com" (.error (.timeout "t")) =
      .error (.timeout "t") := by
  have h := c10_notfound_absorbed "user@example.com" "Not found" (.timeout "t")
  exact ⟨h.1, h.2.1 rfl, h.2.2.1, h.2.2.2 rfl⟩

/-- C9: for a query mapping (keys are unique, as for a JS record), the
constructed search-parameter list contains exactly the entries whose value is
defined, in order, each string-coerced — absent (`undefined`) values are
omitted entirely — and the boolean `true` coerces to the string `"true"`. -/
theorem c9_query_params (params : List (String × ParamValue))
    (h : (params.map Prod.fst).Nodup) :
    buildUrlParams params =
      (params.filter (fun p => p.2 != ParamValue.undef)).map
        (fun p => (p.1, jsStringOf p.2)) ∧
    jsStringOf (.bool true) = "true" := by
  refine ⟨?_, rfl⟩
  have hfold := buildFold_fresh params [] h (by simp)
  simpa [buildUrlParams] using hfold

/-- Witness for C9: `{a: "1", b: undefined, c: true}` produces
`a=1&c=true` with `b` omitted. -/
theorem c9_query_params_witness :
    buildUrlParams c9Params =
      (c9Params.filter (fun p => p.2 != ParamValue.undef)).map
        (fun p => (p.1, jsStringOf p.2)) ∧
    jsStringOf (.bool true) = "true" ∧
    buildUrlParams c9Params = [("a", "1"), ("c", "true")] := by
  have h := c9_query_params c9Params (by decide)
  exact ⟨h.1, h.2, h.1.trans rfl⟩

/-- C7 (counterexample): the claim requires `timeoutMs` to be an integer, but
`validateTimeout` only checks `Number.isFinite` and the range — the
non-integral timeout `2000.5` ms is accepted and construction succeeds instead
of failing with a `Validation` error. -/
theorem c7_counterexample :
    resolveConfig ⟨none, some halfMs, none, none⟩ =
      .ok ⟨"https://api.xposedornot.com", halfMs, 3, []⟩ ∧
    halfMs.isInt = false := by
  constructor
  · rfl
  · rfl

/-- C7 (amended): construction validates the configuration eagerly and fails
fast with a `Validation` error exactly when it is invalid, where valid means:
the base URL parses with the `https` scheme, `timeoutMs` is a finite number in
[1000, 300000] (not necessarily an integer), and `maxRetries` is an integer in
[0, 10]; a valid configuration resolves to the defaulted/merged record. -/
theorem c7_validation_exact (cfg : XonConfigInput) :
    (configValidSpec cfg = true →
      resolveConfig cfg = .ok ⟨cfg.baseUrl.getD "https://api.xposedornot.com",
        cfg.timeoutMs.getD 30000, cfg.retries.getD 3,
        recordMerge [] (cfg.headers.getD [])⟩) ∧
    (configValidSpec cfg = false → resolveIsValidationError (resolveConfig cfg) = true) := by
  have hdb : defaultConfig.baseUrl = "https://api.xposedornot.com" := rfl
  have hdt : defaultConfig.timeoutMs = 30000 := rfl
  have hdr : defaultConfig.retries = (3 : ℚ) := rfl
  by_cases hu : urlProtocol (cfg.baseUrl.getD "https://api.xposedornot.com") = some "https:"
  case neg =>
    have hval : resolveIsValidationError (resolveConfig cfg) = true := by
      simp only [resolveConfig, hdb, hdt, hdr]
      unfold validateBaseUrl
      cases hp : urlProtocol (cfg.baseUrl.getD "https://api.xposedornot.com") with
      | none => simp [hp, resolveIsValidationError]
      | some p =>
        have hne : p ≠ "https:" := by
          intro hq
          exact hu (hq ▸ hp)
        simp [hp, hne, resolveIsValidationError]
    have hspec : configValidSpec cfg = false := by
      simp [configValidSpec, hu]
    exact ⟨fun hv => by simp [hspec] at hv, fun _ => hval⟩
  case pos =>
    have hB : validateBaseUrl (cfg.baseUrl.getD "https://api.xposedornot.com") = none :=
      validateBaseUrl_https _ hu
    by_cases hT : cfg.timeoutMs.getD 30000 < 1000 ∨ cfg.timeoutMs.getD 30000 > 300000
    case pos =>
      have hval : resolveIsValidationError (resolveConfig cfg) = true := by
        simp only [resolveConfig, hdb, hdt, hdr, hB, validateTimeout_bad _ hT]
        simp [resolveIsValidationError]
      have hspec : configValidSpec cfg = false := by
        cases hcv : configValidSpec cfg with
        | false => rfl
        | true =>
          exfalso
          simp only [configValidSpec, Bool.and_eq_true, decide_eq_true_eq, beq_iff_eq] at hcv
          rcases hT with h | h
          · exact absurd hcv.1.1.1.1.2 (not_le.mpr h)
          · exact absurd hcv.1.1.1.2 (not_le.mpr h)
      exact ⟨fun hv => by simp [hspec] at hv, fun _ => hval⟩
    case neg =>
      by_cases hI : (cfg.retries.getD 3).isInt = true
      case neg =>
        have hIf : (cfg.retries.getD 3).isInt = false := by
          cases hii : (cfg.retries.getD 3).isInt with
          | false => rfl
          | true => exact absurd hii hI
        have hval : resolveIsValidationError (resolveConfig cfg) = true := by
          simp only [resolveConfig, hdb, hdt, hdr, hB, validateTimeout_ok _ hT,
            validateRetries_notInt _ hIf]
          simp [resolveIsValidationError]
        have hspec : configValidSpec cfg = false := by
          cases hcv : configValidSpec cfg with
          | false => rfl
          | true =>
            exfalso
            simp only [configValidSpec, Bool.and_eq_true, decide_eq_true_eq, beq_iff_eq] at hcv
            exact hI hcv.1.1.2
        exact ⟨fun hv => by simp [hspec] at hv, fun _ => hval⟩
      case pos =>
        by_cases hR : cfg.retries.getD 3 < 0 ∨ cfg.retries.getD 3 > 10
        case pos =>
          have hval : resolveIsValidationError (resolveConfig cfg) = true := by
            simp only [resolveConfig, hdb, hdt, hdr, hB, validateTimeout_ok _ hT,
              validateRetries_bad _ hI hR]
            simp [resolveIsValidationError]
          have hspec : configValidSpec cfg = false := by
            cases hcv : configValidSpec cfg with
            | false => rfl
            | true =>
              exfalso
              simp only [configValidSpec, Bool.and_eq_true, decide_eq_true_eq, beq_iff_eq] at hcv
              rcases hR with h | h
              · exact absurd hcv.1.2 (not_le.mpr h)
              · exact absurd hcv.2 (not_le.mpr h)
          exact ⟨fun hv => by simp [hspec] at hv, fun _ => hval⟩
        case neg =>
          have hok : resolveConfig cfg = .ok ⟨cfg.baseUrl.getD "https://api.xposedornot.com",
              cfg.timeoutMs.getD 30000, cfg.retries.getD 3,
              recordMerge [] (cfg.headers.getD [])⟩ := by
            simp only [resolveConfig, hdb, hdt, hdr, hB, validateTimeout_ok _ hT,
              validateRetries_ok _ hI hR]
            rfl
          have hspec : configValidSpec cfg = true := by
            push_neg at hT hR
            simp [configValidSpec, hu, hI, hT.1, hT.2, hR.1, hR.2]
          exact ⟨fun _ => hok, fun hv => by simp [hspec] at hv⟩

/-- Witness for C7 (amended): the default configuration is valid and resolves
to the defaults; an `http` base URL is invalid and fails with a `Validation`
error. -/
theorem c7_validation_exact_witness :
    resolveConfig ⟨none, none, none, none⟩ =
      .ok ⟨"https://api.xposedornot.com", 30000, 3, []⟩ ∧
    resolveIsValidationError
      (resolveConfig ⟨some "http://api.xposedornot.com", none, none, none⟩) = true :=
  ⟨(c7_validation_exact ⟨none, none, none, none⟩).1 (by decide),
    (c7_validation_exact ⟨some "http://api.xposedornot.com", none, none, none⟩).2 (by decide)⟩

end XposedOrNot
